import Mathlib

/-!
Shallow embedding of the core middleware decorators of this repository:
the capacity-limited admission gate (tower-filter), the retry engine
(tower-retry) and the lazy connection manager (tower-reconnect).

Asynchronous sub-operations (the checker future, the inner service's
readiness and response futures, the connection-creation future, the policy
decision future) are modelled as oracles: each poll of a sub-future
consumes one event from an environment-chosen event list, so a theorem
quantified over event lists covers every behaviour of the pluggable
collaborators.  Machine counters (`AtomicUsize`) are modelled as `Nat`
with explicit wrap-around modulo `2 ^ 64` where the source performs
`fetch_add` / `fetch_sub`.
-/

namespace PantsTower

/-- Word size of the target's `usize`, used for the atomic capacity counter. -/
def usizeMod : Nat := 2 ^ 64

/- ===================================================================
   tower-filter (Admission Gate), src/tower-filter/src/lib.rs
   =================================================================== -/

/-- Embedding of `ResponseInner::inc_rem` (lib.rs 205-209) acting on the
shared `rem` counter: `fetch_add(1, SeqCst)` with `usize` wrap-around. -/
def incRemNat (rem : Nat) : Nat := (rem + 1) % usizeMod

/-- Embedding of the notification condition of `ResponseInner::inc_rem`
(lib.rs 206): `task.notify()` is called iff `fetch_add` returned 0,
i.e. iff the previous value of the counter was 0. -/
def incRemNotifies (rem : Nat) : Bool := rem == 0

/-- Result of `Filter::poll_ready`. -/
inductive FReady where
  | ready
  | notReady
deriving DecidableEq

/-- Embedding of `Filter::poll_ready` (lib.rs 109-121): register the task
as the waiter, then report ready iff the loaded counter is non-zero. -/
def filterPollReady (rem : Nat) : FReady :=
  if rem = 0 then FReady.notReady else FReady.ready

/-- Per-request state, mirroring `enum State` of the filter
(lib.rs 72-78): `Check` holds the request while the checker future runs,
`WaitReady` while waiting for inner readiness, `WaitResponse` while the
inner response future runs, `NoCap` is the placeholder left by
`mem::replace` and the state of a no-capacity future. -/
inductive FState where
  | Check
  | WaitReady
  | WaitResponse
  | NoCap
deriving DecidableEq

/-- Final results of a filter response future, mirroring `enum Error`
(lib.rs 43-53) plus the success case; payloads are concretised to `Nat`. -/
inductive FRes where
  | ok (v : Nat)
  | rejected (e : Nat)
  | inner (e : Nat)
  | noCapacity
deriving DecidableEq

/-- Outcome of one external poll of a filter response future. -/
inductive FOut where
  | pending
  | final (r : FRes)
deriving DecidableEq

/-- Outcome of polling one sub-future of the filter: the checker future
(`chk`), the inner service's readiness (`rdy`) or the inner response
future (`rsp`).  Event payloads are the checker error, the inner
readiness error, and the response value / inner error respectively. -/
inductive FEv where
  | chk (r : Option (Option Nat))
  | rdy (r : Option (Option Nat))
  | rsp (r : Option (Sum Nat Nat))
deriving DecidableEq

/-- Embedding of `ResponseInner::poll` (lib.rs 211-264) together with the
`inner: None` branch of `ResponseFuture::poll` (lib.rs 178-184), driven by
one oracle event per sub-future poll.  For the `chk` and `rdy` events,
`none` is `NotReady`, `some none` is `Ready` and `some (some e)` is
`Err(e)`; for `rsp`, `none` is `NotReady`, `some (Sum.inl v)` is
`Ready(v)` and `some (Sum.inr e)` is `Err(e)`.  Returns the new state,
the new counter and the poll outcome, or `none` when the event list is
exhausted or mismatched (an under-specified oracle). -/
def pollInner : FState → Nat → List FEv → Option (FState × Nat × FOut)
  | FState.NoCap, rem, _ => some (FState.NoCap, rem, FOut.final FRes.noCapacity)
  | FState.Check, rem, (FEv.chk r :: evs) =>
    match r with
    | none => some (FState.Check, rem, FOut.pending)
    | some none => pollInner FState.WaitReady rem evs
    | some (some e) => some (FState.NoCap, rem, FOut.final (FRes.rejected e))
  | FState.WaitReady, rem, (FEv.rdy r :: evs) =>
    match r with
    | none => some (FState.WaitReady, rem, FOut.pending)
    | some none => pollInner FState.WaitResponse (incRemNat rem) evs
    | some (some e) =>
      some (FState.NoCap, incRemNat rem, FOut.final (FRes.inner e))
  | FState.WaitResponse, rem, (FEv.rsp r :: _) =>
    match r with
    | none => some (FState.WaitResponse, rem, FOut.pending)
    | some (Sum.inl v) => some (FState.WaitResponse, rem, FOut.final (FRes.ok v))
    | some (Sum.inr e) => some (FState.WaitResponse, rem, FOut.final (FRes.inner e))
  | _, _, _ => none

/-- One outstanding request of the gate: whether its `call` decremented the
counter (`inner` was `Some`), its current state, and (ghost) the first
final result its future returned. -/
structure FReq where
  admitted : Bool
  state : FState
  done : Option FRes
deriving DecidableEq

/-- The admission gate: the shared capacity counter and every response
future handed out so far. -/
structure GateState where
  rem : Nat
  reqs : List FReq
deriving DecidableEq

/-- Embedding of `Filter::new` (lib.rs 86-98): the counter starts at the
configured buffer size. -/
def filterNew (buffer : Nat) : GateState :=
  { rem := buffer, reqs := [] }

/-- Embedding of `Filter::call` (lib.rs 123-152): if the loaded counter is
zero the future is created with `inner: None`; otherwise the counter is
decremented (`fetch_sub(1)`, with `usize` wrap-around) and the future
starts in the `Check` state. -/
def filterCall (g : GateState) : GateState :=
  if g.rem = 0 then
    { g with reqs := g.reqs ++ [{ admitted := false, state := FState.NoCap, done := none }] }
  else
    { rem := (g.rem + (usizeMod - 1)) % usizeMod,
      reqs := g.reqs ++ [{ admitted := true, state := FState.Check, done := none }] }

/-- An interleaving step on the gate: a new `call`, or one external poll of
the `i`-th response future with the given sub-future oracle. -/
inductive GOp where
  | call
  | pollReq (i : Nat) (evs : List FEv)

/-- Ghost bookkeeping: record the first final result a future returns. -/
def doneUpd (d0 : Option FRes) (out : FOut) : Option FRes :=
  match d0, out with
  | none, FOut.final res => some res
  | d, _ => d

/-- One step of the gate system.  Polling an unknown index or with an
under-specified oracle leaves the system unchanged. -/
def gateStep (g : GateState) : GOp → GateState
  | GOp.call => filterCall g
  | GOp.pollReq i evs =>
    match g.reqs[i]? with
    | none => g
    | some r =>
      match pollInner r.state g.rem evs with
      | none => g
      | some (st, rem, out) =>
        { rem := rem,
          reqs := g.reqs.set i
            { admitted := r.admitted, state := st, done := doneUpd r.done out } }

/-- Run a sequence of interleaved operations on the gate. -/
def gateRun (g : GateState) : List GOp → GateState
  | [] => g
  | op :: ops => gateRun (gateStep g op) ops

/-- The requests described by the capacity-invariant claim: checker
running (`Check`) or inner-service call running (`WaitResponse`), and not
yet completed. -/
def claimConcurrent (g : GateState) : Nat :=
  (g.reqs.filter (fun r =>
    r.done.isNone &&
      (r.state == FState.Check || r.state == FState.WaitResponse))).length

/-- Weight of a request state towards the capacity slots actually held:
a slot is held from admission until `inc_rem` runs, i.e. in `Check` and
`WaitReady`. -/
def slotW : FState → Nat
  | FState.Check => 1
  | FState.WaitReady => 1
  | FState.WaitResponse => 0
  | FState.NoCap => 0

/-- Total slot weight of a request list. -/
def sumW (l : List FReq) : Nat := (l.map (fun r => slotW r.state)).sum

/-- Number of capacity slots currently held by outstanding requests. -/
def slotHolders (g : GateState) : Nat := sumW g.reqs

/- ===================================================================
   tower-retry (Retry Engine), src/tower-retry/src/lib.rs
   =================================================================== -/

/-- Mirror of the inner service's `Result<Response, Error>` with both
payloads concretised to `Nat`. -/
inductive RResult where
  | ok (v : Nat)
  | error (e : Nat)
deriving DecidableEq

/-- Outcome of polling the in-flight inner-service future (`State::Called`):
`NotReady`, `Ready(v)` or `Err(e)`. -/
inductive SvcPoll where
  | notReady
  | ok (v : Nat)
  | err (e : Nat)
deriving DecidableEq

/-- Outcome of polling the policy's retry-decision future
(`State::Checking`): `NotReady`, `Ready(new_policy)` or `Err(())`. -/
inductive ChkPoll where
  | notReady
  | ok (p : Nat)
  | err
deriving DecidableEq

/-- Outcome of `Retry::poll_ready`, which forwards to the inner service
(`State::Retrying`): `NotReady`, `Ready` or `Err(e)`. -/
inductive RdyPoll where
  | notReady
  | ok
  | err (e : Nat)
deriving DecidableEq

/-- One oracle event for the retry response future: each loop iteration of
`ResponseFuture::poll` polls exactly one of the three sub-operations. -/
inductive REv where
  | svc (r : SvcPoll)
  | chk (r : ChkPoll)
  | rdy (r : RdyPoll)
deriving DecidableEq

/-- Mirror of `enum State` of the retry engine (lib.rs 27-35).  `Checking`
carries the pending result to fall back on (as `Option`, mirroring the
`Option<Result<R, E>>` that `result.take()` consumes); the in-flight
futures themselves are event-driven. -/
inductive RetState where
  | Called
  | Checking (res : Option (RResult))
  | Retrying
deriving DecidableEq

/-- Mirror of `ResponseFuture` of the retry engine (lib.rs 20-25): the
retained cloned request, the engine clone's stored policy, the state, and
a ghost count of inner-service calls made so far. -/
structure RetryFut where
  request : Option Nat
  policy : Nat
  state : RetState
  calls : Nat
deriving DecidableEq

/-- Embedding of `Retry::call` (lib.rs 73-81): clone the request via the
policy, dispatch the inner call (the first inner call), start `Called`. -/
def retryCall (cloneReq : Nat → Nat → Option Nat) (p req : Nat) : RetryFut :=
  { request := cloneReq p req, policy := p, state := RetState.Called, calls := 1 }

/-- Result of one iteration of the `loop` in `ResponseFuture::poll`:
continue looping with a new state, return from the poll, hit one of the
two `expect` panics, or an under-specified oracle. -/
inductive StepOut where
  | cont (s : RetryFut)
  | yield (s : RetryFut) (r : Option (RResult))
  | panicNoResult
  | panicNoRequest
  | stuck
deriving DecidableEq

/-- Embedding of one iteration of the `loop` of `ResponseFuture::poll`
(lib.rs 110-158).  `retryDec pol req res` embeds whether
`Policy::retry(&req, res)` returns `Some` decision future (the future's
behaviour comes from `chk` events); `cloneReq pol req` embeds
`Policy::clone_request`.  `yield s none` is `NotReady`,
`yield s (some r)` resolves the external call with `r`. -/
def retryStep (retryDec : Nat → Nat → RResult → Bool)
    (cloneReq : Nat → Nat → Option Nat) (ev : REv) (s : RetryFut) : StepOut :=
  match s.state, ev with
  | RetState.Called, REv.svc sp =>
    match sp with
    | SvcPoll.notReady => StepOut.yield s none
    | SvcPoll.ok v =>
      match s.request with
      | some req =>
        if retryDec s.policy req (RResult.ok v) then
          StepOut.cont { s with state := RetState.Checking (some (RResult.ok v)) }
        else
          StepOut.yield s (some (RResult.ok v))
      | none => StepOut.yield s (some (RResult.ok v))
    | SvcPoll.err e =>
      match s.request with
      | some req =>
        if retryDec s.policy req (RResult.error e) then
          StepOut.cont { s with state := RetState.Checking (some (RResult.error e)) }
        else
          StepOut.yield s (some (RResult.error e))
      | none => StepOut.yield s (some (RResult.error e))
  | RetState.Checking res, REv.chk cp =>
    match cp with
    | ChkPoll.notReady => StepOut.yield s none
    | ChkPoll.ok p =>
      StepOut.cont { s with policy := p, state := RetState.Retrying }
    | ChkPoll.err =>
      match res with
      | some r => StepOut.yield { s with state := RetState.Checking none } (some r)
      | none => StepOut.panicNoResult
  | RetState.Retrying, REv.rdy rp =>
    match rp with
    | RdyPoll.notReady => StepOut.yield s none
    | RdyPoll.err e => StepOut.yield s (some (RResult.error e))
    | RdyPoll.ok =>
      match s.request with
      | some req =>
        StepOut.cont { s with request := cloneReq s.policy req,
                              state := RetState.Called, calls := s.calls + 1 }
      | none => StepOut.panicNoRequest
  | _, _ => StepOut.stuck

/-- Result of one external poll of the retry response future. -/
inductive ROut where
  | out (s : RetryFut) (r : Option (RResult))
  | panicNoResult
  | panicNoRequest
  | stuck
deriving DecidableEq

/-- One external poll of the retry response future: iterate the loop,
consuming one oracle event per iteration. -/
def pollRetry (retryDec : Nat → Nat → RResult → Bool)
    (cloneReq : Nat → Nat → Option Nat) : List REv → RetryFut → ROut
  | [], _ => ROut.stuck
  | ev :: evs, s =>
    match retryStep retryDec cloneReq ev s with
    | StepOut.cont s1 => pollRetry retryDec cloneReq evs s1
    | StepOut.yield s1 r => ROut.out s1 r
    | StepOut.panicNoResult => ROut.panicNoResult
    | StepOut.panicNoRequest => ROut.panicNoRequest
    | StepOut.stuck => ROut.stuck

/-- States of the retry response future reachable from `Retry::call`
through any sequence of polls (with arbitrary oracles). -/
inductive RetryReach (retryDec : Nat → Nat → RResult → Bool)
    (cloneReq : Nat → Nat → Option Nat) : RetryFut → Prop where
  | init (p req : Nat) : RetryReach retryDec cloneReq (retryCall cloneReq p req)
  | step (s : RetryFut) (evs : List REv) (s1 : RetryFut)
      (r : Option (RResult)) :
      RetryReach retryDec cloneReq s →
      pollRetry retryDec cloneReq evs s = ROut.out s1 r →
      RetryReach retryDec cloneReq s1

/-- The counting retry policy used for the retry-termination claims: on an
inner error, retry iff the policy counter is non-zero (the replacement
value produced by the decision future is supplied by `chk` events). -/
def rdCount : Nat → Nat → RResult → Bool := fun p _ r =>
  match r with
  | RResult.error _ => p != 0
  | RResult.ok _ => false

/-- Request cloning that always succeeds, returning the request itself. -/
def crId : Nat → Nat → Option Nat := fun _ r => some r

/-- Oracle for a full run against an always-failing inner service with
immediately-ready futures: with `p` retries remaining and the next inner
call numbered `c`, the inner call fails with error `c`; each decision
future immediately yields the decremented policy and the inner service is
immediately ready again. -/
def c3Evs : Nat → Nat → List REv
  | 0, c => [REv.svc (SvcPoll.err c)]
  | p + 1, c =>
    REv.svc (SvcPoll.err c) :: REv.chk (ChkPoll.ok p) :: REv.rdy RdyPoll.ok ::
      c3Evs p (c + 1)

/- ===================================================================
   tower-reconnect (Lazy Connection Manager), src/tower-reconnect/src/lib.rs
   =================================================================== -/

/-- Mirror of `enum State` of the reconnect manager (lib.rs 31-37); the
pending creation future and the live service are event-driven, so the
constructors carry no payload. -/
inductive RcState where
  | Idle
  | Connecting
  | Connected
deriving DecidableEq

/-- Mirror of `enum Error` of the reconnect manager (lib.rs 18-23), with
both error payloads concretised to `Nat`. -/
inductive RcError where
  | Inner (e : Nat)
  | Connect (e : Nat)
  | NotReady
deriving DecidableEq

/-- Oracle event for one poll of the manager's current asynchronous
sub-operation: in `Connecting` it is the creation future (`ok` = a service
was produced, `err e` = creation failed), in `Connected` it is the inner
service's `poll_ready` (`err e` = readiness failure). -/
inductive RcEv where
  | notReady
  | ok
  | err (e : Nat)
deriving DecidableEq

/-- Result of one call of `Reconnect::poll_ready`. -/
inductive RcReady where
  | pending
  | ready
  | failed (e : RcError)
deriving DecidableEq

/-- Ranking used only for the termination of `rcPollReady`: the `Idle`
branch of the source loop transitions without polling anything. -/
def rcRank : RcState → Nat
  | RcState.Idle => 1
  | _ => 0

/-- Embedding of `Reconnect::poll_ready` (lib.rs 59-115): from `Idle`,
start creation and continue as `Connecting`; in `Connecting`, a pending
creation suspends, a created service moves to `Connected` and the loop
continues, a creation failure reverts to `Idle` and surfaces
`Connect(e)`; in `Connected`, inner readiness propagates ready / pending,
and an inner readiness failure reverts to `Idle` and loops again without
surfacing the error.  Returns `none` when the oracle is exhausted. -/
def rcPollReady : List RcEv → RcState → Option (RcState × RcReady)
  | evs, RcState.Idle => rcPollReady evs RcState.Connecting
  | RcEv.notReady :: _, RcState.Connecting =>
    some (RcState.Connecting, RcReady.pending)
  | RcEv.ok :: evs, RcState.Connecting => rcPollReady evs RcState.Connected
  | RcEv.err e :: _, RcState.Connecting =>
    some (RcState.Idle, RcReady.failed (RcError.Connect e))
  | RcEv.notReady :: _, RcState.Connected =>
    some (RcState.Connected, RcReady.pending)
  | RcEv.ok :: _, RcState.Connected => some (RcState.Connected, RcReady.ready)
  | RcEv.err _ :: evs, RcState.Connected => rcPollReady evs RcState.Idle
  | [], _ => none
termination_by evs s => (evs.length, rcRank s)
decreasing_by
  all_goals simp [rcRank, Prod.lex_iff]

/-- The response future of the reconnect manager (`ResponseFuture`,
lib.rs 25-29): whether the inner future is present. -/
inductive RcFut where
  | absent
  | present
deriving DecidableEq

/-- Embedding of `Reconnect::call` (lib.rs 117-129): only a `Connected`
manager dispatches to the inner service; otherwise the returned future
has `inner: None`.  The manager's state is returned alongside, exactly as
the source leaves it. -/
def rcCall : RcState → RcState × RcFut
  | RcState.Connected => (RcState.Connected, RcFut.present)
  | s => (s, RcFut.absent)

/-- Result of one poll of the reconnect response future. -/
inductive RcResp where
  | pending
  | success (v : Nat)
  | failed (e : RcError)
deriving DecidableEq

/-- Embedding of `ResponseFuture::poll` of the reconnect manager
(lib.rs 170-179): `inner: None` fails with `NotReady`; otherwise the inner
future's outcome (an `RcEv` oracle event, reusing `ok` for a response
value of 0) is propagated, with errors wrapped in `Inner`. -/
def rcFutPoll : RcFut → RcEv → RcResp
  | RcFut.absent, _ => RcResp.failed RcError.NotReady
  | RcFut.present, RcEv.notReady => RcResp.pending
  | RcFut.present, RcEv.ok => RcResp.success 0
  | RcFut.present, RcEv.err e => RcResp.failed (RcError.Inner e)

/-- The reconnect manager together with its most recently issued response
future. -/
structure RcSys where
  mgr : RcState
  fut : Option RcFut
deriving DecidableEq

/-- An operation on the reconnect system: a readiness poll, a call, or a
poll of the outstanding response future. -/
inductive RcOp where
  | pollReady (evs : List RcEv)
  | call
  | pollResponse (ev : RcEv)

/-- Observation produced by one reconnect system step. -/
inductive RcObs where
  | readyOut (r : RcReady)
  | called
  | respOut (r : RcResp)
  | stuckOut
deriving DecidableEq

/-- One step of the reconnect system: only `poll_ready` touches the
lifecycle state; `call` stores the new response future; polling the
response future consults it alone. -/
def rcSysStep (sys : RcSys) : RcOp → RcSys × RcObs
  | RcOp.pollReady evs =>
    match rcPollReady evs sys.mgr with
    | some (s1, r) => ({ sys with mgr := s1 }, RcObs.readyOut r)
    | none => (sys, RcObs.stuckOut)
  | RcOp.call =>
    let c := rcCall sys.mgr
    ({ mgr := c.1, fut := some c.2 }, RcObs.called)
  | RcOp.pollResponse ev =>
    match sys.fut with
    | none => (sys, RcObs.stuckOut)
    | some f => (sys, RcObs.respOut (rcFutPoll f ev))

/-- Whether a `poll_ready` outcome surfaces an inner-service error. -/
def rcIsInnerFail : Option (RcState × RcReady) → Bool
  | some (_, RcReady.failed (RcError.Inner _)) => true
  | _ => false

/-- Whether a retry state is the `Retrying` variant. -/
def isRetrying : RetState → Bool
  | RetState.Retrying => true
  | _ => false

/-- Structural invariant of the retry response future: whenever the state
is `Checking` or `Retrying`, the cloned request is still held. -/
def RetryInv (s : RetryFut) : Prop :=
  match s.state with
  | RetState.Called => True
  | RetState.Checking _ => s.request.isSome = true
  | RetState.Retrying => s.request.isSome = true

/- ===================================================================
   Helper lemmas
   =================================================================== -/

/-- The `usize` modulus as a literal. -/
lemma usizeMod_eq : usizeMod = 18446744073709551616 := by norm_num [usizeMod]

/-- A guarded `fetch_sub(1)` on a non-zero in-range `usize` is an exact
decrement. -/
lemma usize_sub_one (r : Nat) (h0 : r ≠ 0) (hlt : r < usizeMod) :
    (r + (usizeMod - 1)) % usizeMod = r - 1 := by
  rw [usizeMod_eq] at hlt ⊢
  have h1 : r + (18446744073709551616 - 1) = (r - 1) + 1 * 18446744073709551616 := by
    omega
  rw [h1, Nat.add_mul_mod_self_right]
  exact Nat.mod_eq_of_lt (by omega)

/-- An in-range `fetch_add(1)` is an exact increment. -/
lemma usize_add_one (r : Nat) (hlt : r + 1 < usizeMod) : incRemNat r = r + 1 := by
  unfold incRemNat
  exact Nat.mod_eq_of_lt hlt

lemma slotHolders_eq_sumW (g : GateState) : slotHolders g = sumW g.reqs := rfl

lemma sumW_append (l : List FReq) (r : FReq) :
    sumW (l ++ [r]) = sumW l + slotW r.state := by
  simp [sumW]

lemma sumW_cons (a : FReq) (l : List FReq) :
    sumW (a :: l) = slotW a.state + sumW l := by
  simp [sumW]

lemma sumW_set :
    ∀ (l : List FReq) (i : Nat) (x r : FReq), l[i]? = some x →
      sumW (l.set i r) + slotW x.state = sumW l + slotW r.state := by
  intro l
  induction l with
  | nil => intro i x r h; simp at h
  | cons a l ih =>
    intro i x r h
    cases i with
    | zero =>
      simp at h
      subst h
      simp [List.set, sumW_cons]
      omega
    | succ j =>
      simp at h
      have := ih j x r h
      simp [List.set, sumW_cons]
      omega

lemma sumW_get_le :
    ∀ (l : List FReq) (i : Nat) (x : FReq), l[i]? = some x →
      slotW x.state ≤ sumW l := by
  intro l
  induction l with
  | nil => intro i x h; simp at h
  | cons a l ih =>
    intro i x h
    cases i with
    | zero =>
      simp at h
      subst h
      simp [sumW_cons]
    | succ j =>
      simp at h
      have := ih j x h
      simp [sumW_cons]
      omega

/-- One external poll never increases the number of slots accounted for by
the counter plus the polled request: the only counter updates inside
`ResponseInner::poll` are the `inc_rem` calls, each of which also moves
the request out of a slot-holding state. -/
lemma pollInner_slots :
    ∀ (evs : List FEv) (st : FState) (rem : Nat) (st1 : FState) (rem1 : Nat)
      (out : FOut),
      rem + slotW st < usizeMod →
      pollInner st rem evs = some (st1, rem1, out) →
      rem1 + slotW st1 ≤ rem + slotW st := by
  intro evs
  induction evs with
  | nil =>
    intro st rem st1 rem1 out hlt h
    cases st <;> simp [pollInner] at h
    obtain ⟨h1, h2, h3⟩ := h
    subst h1; subst h2
    simp [slotW]
  | cons ev evs ih =>
    intro st rem st1 rem1 out hlt h
    cases st with
    | NoCap =>
      simp [pollInner] at h
      obtain ⟨h1, h2, h3⟩ := h
      subst h1; subst h2
      simp [slotW]
    | Check =>
      cases ev with
      | chk r =>
        rcases r with _ | (_ | e)
        · simp [pollInner] at h
          obtain ⟨h1, h2, h3⟩ := h
          subst h1; subst h2
          simp [slotW]
        · simp [pollInner] at h
          have := ih FState.WaitReady rem st1 rem1 out (by simpa [slotW] using hlt) h
          simpa [slotW] using this
        · simp [pollInner] at h
          obtain ⟨h1, h2, h3⟩ := h
          subst h1; subst h2
          simp [slotW]
      | rdy r => simp [pollInner] at h
      | rsp r => simp [pollInner] at h
    | WaitReady =>
      cases ev with
      | chk r => simp [pollInner] at h
      | rdy r =>
        have hlt2 : rem + 1 < usizeMod := by
          simpa [slotW] using hlt
        have hinc : incRemNat rem = rem + 1 := usize_add_one rem hlt2
        rcases r with _ | (_ | e)
        · simp [pollInner] at h
          obtain ⟨h1, h2, h3⟩ := h
          subst h1; subst h2
          simp [slotW]
        · simp [pollInner] at h
          rw [hinc] at h
          have := ih FState.WaitResponse (rem + 1) st1 rem1 out
            (by simp [slotW]; omega) h
          simp [slotW] at this ⊢
          omega
        · simp [pollInner] at h
          obtain ⟨h1, h2, h3⟩ := h
          subst h1; subst h2
          simp [slotW, hinc]
      | rsp r => simp [pollInner] at h
    | WaitResponse =>
      cases ev with
      | chk r => simp [pollInner] at h
      | rdy r => simp [pollInner] at h
      | rsp r =>
        rcases r with _ | (v | e) <;>
          · simp [pollInner] at h
            obtain ⟨h1, h2, h3⟩ := h
            subst h1; subst h2
            simp [slotW]

/-- Every interleaving step of the gate preserves the slot accounting
bound: counter plus held slots never exceeds the configured buffer. -/
lemma gateStep_inv (N : Nat) (hN : N < usizeMod) (g : GateState) (op : GOp)
    (h : g.rem + sumW g.reqs ≤ N) :
    (gateStep g op).rem + sumW (gateStep g op).reqs ≤ N := by
  cases op with
  | call =>
    by_cases hz : g.rem = 0
    · simp [gateStep, filterCall, hz, sumW_append, slotW]
      simpa [hz] using h
    · have hlt : g.rem < usizeMod := lt_of_le_of_lt (le_trans (Nat.le_add_right _ _) h) hN
      simp [gateStep, filterCall, hz, sumW_append, slotW,
        usize_sub_one g.rem hz hlt]
      omega
  | pollReq i evs =>
    rcases h1 : g.reqs[i]? with _ | r
    · simpa [gateStep, h1] using h
    · rcases h2 : pollInner r.state g.rem evs with _ | ⟨st1, rem1, out⟩
      · simpa [gateStep, h1, h2] using h
      · have hget := sumW_get_le g.reqs i r h1
        have hlt : g.rem + slotW r.state < usizeMod := by omega
        have hmono := pollInner_slots evs r.state g.rem st1 rem1 out hlt h2
        have hset := sumW_set g.reqs i r
          { admitted := r.admitted, state := st1, done := doneUpd r.done out } h1
        simp only [gateStep, h1, h2]
        simp only at hset
        omega

/-- The slot accounting bound holds along every run of the gate. -/
lemma gateRun_inv (N : Nat) (hN : N < usizeMod) :
    ∀ (ops : List GOp) (g : GateState), g.rem + sumW g.reqs ≤ N →
      (gateRun g ops).rem + sumW (gateRun g ops).reqs ≤ N := by
  intro ops
  induction ops with
  | nil => intro g h; simpa [gateRun] using h
  | cons op ops ih =>
    intro g h
    simpa [gateRun] using ih (gateStep g op) (gateStep_inv N hN g op h)

/-- One loop iteration of the retry poll preserves the request-retention
invariant and can only hit the `"retrying requires cloned request"`
`expect` from a state violating it. -/
lemma retryStep_inv (rd : Nat → Nat → RResult → Bool) (cr : Nat → Nat → Option Nat)
    (ev : REv) (s : RetryFut) (h : RetryInv s) :
    retryStep rd cr ev s ≠ StepOut.panicNoRequest ∧
    (∀ s1, retryStep rd cr ev s = StepOut.cont s1 → RetryInv s1) ∧
    (∀ s1 r, retryStep rd cr ev s = StepOut.yield s1 r → RetryInv s1) := by
  obtain ⟨req, pol, st, cs⟩ := s
  cases st with
  | Called =>
    cases ev with
    | svc sp =>
      cases sp with
      | notReady => simp [retryStep, RetryInv]
      | ok v =>
        cases req with
        | none => simp [retryStep, RetryInv]
        | some r0 =>
          by_cases hd : rd pol r0 (RResult.ok v) <;>
            simp [retryStep, RetryInv, hd]
      | err e =>
        cases req with
        | none => simp [retryStep, RetryInv]
        | some r0 =>
          by_cases hd : rd pol r0 (RResult.error e) <;>
            simp [retryStep, RetryInv, hd]
    | chk cp => simp [retryStep]
    | rdy rp => simp [retryStep]
  | Checking res =>
    simp [RetryInv] at h
    cases ev with
    | svc sp => simp [retryStep]
    | chk cp =>
      cases cp with
      | notReady => simp [retryStep, RetryInv, h]
      | ok p => simp [retryStep, RetryInv, h]
      | err =>
        cases res with
        | none => simp [retryStep]
        | some r0 => simp [retryStep, RetryInv, h]
    | rdy rp => simp [retryStep]
  | Retrying =>
    simp [RetryInv] at h
    cases ev with
    | svc sp => simp [retryStep]
    | chk cp => simp [retryStep]
    | rdy rp =>
      cases rp with
      | notReady => simp [retryStep, RetryInv, h]
      | ok =>
        obtain ⟨r0, hr0⟩ := Option.isSome_iff_exists.mp h
        subst hr0
        simp [retryStep, RetryInv]
      | err e => simp [retryStep, RetryInv, h]

/-- Unfolding lemma for one loop iteration of the external poll. -/
lemma pollRetry_cons (rd : Nat → Nat → RResult → Bool) (cr : Nat → Nat → Option Nat)
    (ev : REv) (evs : List REv) (s : RetryFut) :
    pollRetry rd cr (ev :: evs) s =
      match retryStep rd cr ev s with
      | StepOut.cont s1 => pollRetry rd cr evs s1
      | StepOut.yield s1 r => ROut.out s1 r
      | StepOut.panicNoResult => ROut.panicNoResult
      | StepOut.panicNoRequest => ROut.panicNoRequest
      | StepOut.stuck => ROut.stuck := rfl

/-- An external poll of the retry future from an invariant state never hits
the `Retrying` take-and-unwrap, and ends in an invariant state. -/
lemma pollRetry_inv (rd : Nat → Nat → RResult → Bool) (cr : Nat → Nat → Option Nat) :
    ∀ (evs : List REv) (s : RetryFut), RetryInv s →
      pollRetry rd cr evs s ≠ ROut.panicNoRequest ∧
      (∀ s1 r, pollRetry rd cr evs s = ROut.out s1 r → RetryInv s1) := by
  intro evs
  induction evs with
  | nil => intro s h; simp [pollRetry]
  | cons ev evs ih =>
    intro s h
    have hs := retryStep_inv rd cr ev s h
    cases hst : retryStep rd cr ev s with
    | cont s1 =>
      rw [pollRetry_cons, hst]
      exact ih s1 (hs.2.1 s1 hst)
    | yield s1 r =>
      rw [pollRetry_cons, hst]
      have h1 := hs.2.2 s1 r hst
      refine ⟨by simp, ?_⟩
      intro s2 r2 he
      simp at he
      exact he.1 ▸ h1
    | panicNoResult =>
      rw [pollRetry_cons, hst]
      simp
    | panicNoRequest => exact absurd hst hs.1
    | stuck =>
      rw [pollRetry_cons, hst]
      simp

/-- Every state of the retry response future reachable from `Retry::call`
satisfies the request-retention invariant. -/
lemma retryReach_inv (rd : Nat → Nat → RResult → Bool) (cr : Nat → Nat → Option Nat)
    (s : RetryFut) (h : RetryReach rd cr s) : RetryInv s := by
  induction h with
  | init p req => simp [RetryInv, retryCall]
  | step s evs s1 r hs hp ih => exact (pollRetry_inv rd cr evs s ih).2 s1 r hp

/-- A full immediate-future run of the counting policy against the
always-failing service: starting `Called` with `p` retries remaining,
call number `c` in flight and `cs` calls made, the run declines at the
last failure, having made `p` further calls. -/
lemma retry_run_count (p : Nat) :
    ∀ (c cs r0 : Nat),
      pollRetry rdCount crId (c3Evs p c)
          { request := some r0, policy := p, state := RetState.Called, calls := cs } =
        ROut.out
          { request := some r0, policy := 0, state := RetState.Called, calls := cs + p }
          (some (RResult.error (c + p))) := by
  induction p with
  | zero =>
    intro c cs r0
    simp [c3Evs, pollRetry, retryStep, rdCount, crId]
  | succ p ih =>
    intro c cs r0
    have h1 : cs + 1 + p = cs + (p + 1) := by omega
    have h2 : c + 1 + p = c + (p + 1) := by omega
    have := ih (c + 1) (cs + 1) r0
    rw [h1, h2] at this
    simpa [c3Evs, pollRetry, retryStep, rdCount, crId] using this

/-- A readiness poll of the reconnect manager never surfaces an
inner-service error: the only error it can return is `Connect`. -/
lemma rcPollReady_no_inner :
    ∀ (n : Nat) (evs : List RcEv) (s : RcState), evs.length ≤ n →
      rcIsInnerFail (rcPollReady evs s) = false := by
  intro n
  induction n with
  | zero =>
    intro evs s hle
    have hnil : evs = [] := List.eq_nil_of_length_eq_zero (Nat.le_zero.mp hle)
    subst hnil
    cases s <;> simp [rcPollReady, rcIsInnerFail]
  | succ n ih =>
    intro evs s hle
    cases evs with
    | nil => cases s <;> simp [rcPollReady, rcIsInnerFail]
    | cons ev evs2 =>
      have hle2 : evs2.length ≤ n := by
        simp at hle
        omega
      cases s with
      | Idle =>
        cases ev with
        | notReady => simp [rcPollReady, rcIsInnerFail]
        | ok => simpa [rcPollReady] using ih evs2 RcState.Connected hle2
        | err e => simp [rcPollReady, rcIsInnerFail]
      | Connecting =>
        cases ev with
        | notReady => simp [rcPollReady, rcIsInnerFail]
        | ok => simpa [rcPollReady] using ih evs2 RcState.Connected hle2
        | err e => simp [rcPollReady, rcIsInnerFail]
      | Connected =>
        cases ev with
        | notReady => simp [rcPollReady, rcIsInnerFail]
        | ok => simp [rcPollReady, rcIsInnerFail]
        | err e => simpa [rcPollReady] using ih evs2 RcState.Idle hle2

/- ===================================================================
   Claims
   =================================================================== -/

/-- C1: the claim says every admitted request restores the capacity
counter exactly once, also on checker rejection.  The code evaluated at
the failing input shows otherwise: with buffer 1, one admitted request
whose checker rejects (error 7) completes as `Rejected`, yet the counter
stays 0 (the `Check`-error branch of `ResponseInner::poll` returns
without `inc_rem`), and a subsequent call fails with `NoCapacity`: the
slot is leaked forever. -/
theorem filter_rejection_not_restored :
    gateRun (filterNew 1)
      [GOp.call, GOp.pollReq 0 [FEv.chk (some (some 7))], GOp.call,
       GOp.pollReq 1 []] =
    { rem := 0,
      reqs := [{ admitted := true, state := FState.NoCap,
                 done := some (FRes.rejected 7) },
               { admitted := false, state := FState.NoCap,
                 done := some FRes.noCapacity }] } := by
  decide

/-- C2 counterexample: with buffer 1, admit request A, poll it through an
approving checker and a ready inner service (its inner call is now in
flight and `inc_rem` has already restored the slot), then admit request
B.  Both A (inner call running) and B (checker running) are concurrently
admitted and uncompleted, exceeding the buffer size 1. -/
theorem gate_concurrent_exceeds_buffer :
    1 < claimConcurrent (gateRun (filterNew 1)
      [GOp.call,
       GOp.pollReq 0 [FEv.chk (some none), FEv.rdy (some none), FEv.rsp none],
       GOp.call]) := by
  decide

/-- C2 (amended): for every interleaved sequence of calls and polls on a
gate with buffer `N`, the counter plus the number of requests holding a
capacity slot (checker running or awaiting inner readiness) never exceeds
`N`; hence slot holders never exceed `N` and the counter never exceeds
`N` (in particular the guarded `fetch_sub` never wraps below zero).
Requests whose inner call is already in flight have released their slot
and are not bounded by `N`. -/
theorem gate_capacity_invariant (N : Nat) (ops : List GOp) (hN : N < usizeMod) :
    (gateRun (filterNew N) ops).rem + slotHolders (gateRun (filterNew N) ops) ≤ N ∧
    slotHolders (gateRun (filterNew N) ops) ≤ N ∧
    (gateRun (filterNew N) ops).rem ≤ N := by
  have h0 : (filterNew N).rem + sumW (filterNew N).reqs ≤ N := by
    simp [filterNew, sumW]
  have h := gateRun_inv N hN ops (filterNew N) h0
  rw [slotHolders_eq_sumW]
  omega

/-- C2 witness: the amended invariant at buffer 1 after one call. -/
theorem gate_capacity_invariant_witness :
    (1 < usizeMod) ∧
    ((gateRun (filterNew 1) [GOp.call]).rem +
        slotHolders (gateRun (filterNew 1) [GOp.call]) ≤ 1 ∧
      slotHolders (gateRun (filterNew 1) [GOp.call]) ≤ 1 ∧
      (gateRun (filterNew 1) [GOp.call]).rem ≤ 1) :=
  ⟨by norm_num [usizeMod],
    gate_capacity_invariant 1 [GOp.call] (by norm_num [usizeMod])⟩

/-- C3 counterexample: a policy that declines to retry after exactly
`k = 1` failure (counter 0, `rdCount`), run against the always-failing
immediately-ready service.  The external call completes with the 1st
failure after exactly 1 inner call — not `k + 1 = 2` as the claim
states. -/
theorem retry_one_more_call_counterexample :
    pollRetry rdCount crId (c3Evs 0 1) (retryCall crId 0 5) =
      ROut.out
        { request := some 5, policy := 0, state := RetState.Called, calls := 1 }
        (some (RResult.error 1)) ∧
    (1 : Nat) ≠ 1 + 1 := by
  exact ⟨by decide, by decide⟩

/-- C3 (amended): if the retry policy returns no-retry after exactly `k`
failures (counting policy starting at `k - 1` remaining retries), an
external call against an always-failing inner service completes with the
`k`-th failure and performs exactly `k` inner-service calls (the
original plus `k - 1` retries). -/
theorem retry_termination_exact_calls (k : Nat) (hk : 1 ≤ k) :
    pollRetry rdCount crId (c3Evs (k - 1) 1) (retryCall crId (k - 1) 0) =
      ROut.out
        { request := some 0, policy := 0, state := RetState.Called, calls := k }
        (some (RResult.error k)) := by
  have h := retry_run_count (k - 1) 1 1 0
  have h1 : 1 + (k - 1) = k := by omega
  rw [h1] at h
  simpa [retryCall, crId] using h

/-- C3 witness: the amended statement at `k = 3`. -/
theorem retry_termination_exact_calls_witness :
    (1 ≤ 3) ∧
    pollRetry rdCount crId (c3Evs (3 - 1) 1) (retryCall crId (3 - 1) 0) =
      ROut.out
        { request := some 0, policy := 0, state := RetState.Called, calls := 3 }
        (some (RResult.error 3)) :=
  ⟨by norm_num, retry_termination_exact_calls 3 (by norm_num)⟩

/-- C4: if the policy's retry-decision future fails while the engine is
`Checking`, the external call resolves with exactly the pending
inner-service result captured before the decision — for every policy,
clone function, stored request, policy value and result.  The resolved
value is the stored `RResult` itself (the inner service's own
response/error type); no policy or engine-level error can be produced,
as the outcome type of `pollRetry` only carries inner results. -/
theorem retry_policy_failure_fallback (rd : Nat → Nat → RResult → Bool)
    (cr : Nat → Nat → Option Nat) (req : Option Nat) (pol cs : Nat)
    (r : RResult) (evs : List REv) :
    pollRetry rd cr (REv.chk ChkPoll.err :: evs)
        { request := req, policy := pol, state := RetState.Checking (some r),
          calls := cs } =
      ROut.out
        { request := req, policy := pol, state := RetState.Checking none,
          calls := cs }
        (some r) := by
  rw [pollRetry_cons]
  simp [retryStep]

/-- C5: across every single iteration of the retry poll loop, the stored
policy of the engine clone held by the response future either stays
unchanged with the state not entering `Retrying` (in particular during a
pending or failed decision check, and during the dispatch of a taken
retry), or the iteration is exactly the one where the decision future of
a `Checking` state resolves with a replacement policy `p`: then the
stored policy becomes `p` and the state moves to `Retrying`, committing
to the retry with the new policy value installed. -/
theorem retry_policy_replaced_on_retry (rd : Nat → Nat → RResult → Bool)
    (cr : Nat → Nat → Option Nat) (ev : REv) (s : RetryFut) :
    match retryStep rd cr ev s with
    | StepOut.cont s1 =>
        (s1.policy = s.policy ∧ isRetrying s1.state = false) ∨
        (∃ p res, s.state = RetState.Checking res ∧
          ev = REv.chk (ChkPoll.ok p) ∧ s1.policy = p ∧
          s1.state = RetState.Retrying)
    | StepOut.yield s1 _ => s1.policy = s.policy
    | StepOut.panicNoResult => True
    | StepOut.panicNoRequest => True
    | StepOut.stuck => True := by
  obtain ⟨req, pol, st, cs⟩ := s
  cases st with
  | Called =>
    cases ev with
    | svc sp =>
      cases sp with
      | notReady => simp [retryStep]
      | ok v =>
        cases req with
        | none => simp [retryStep]
        | some r0 =>
          by_cases hd : rd pol r0 (RResult.ok v) <;>
            simp [retryStep, hd, isRetrying]
      | err e =>
        cases req with
        | none => simp [retryStep]
        | some r0 =>
          by_cases hd : rd pol r0 (RResult.error e) <;>
            simp [retryStep, hd, isRetrying]
    | chk cp => simp [retryStep]
    | rdy rp => simp [retryStep]
  | Checking res =>
    cases ev with
    | svc sp => simp [retryStep]
    | chk cp =>
      cases cp with
      | notReady => simp [retryStep]
      | ok p => exact Or.inr ⟨p, res, rfl, rfl, rfl, rfl⟩
      | err =>
        cases res with
        | none => simp [retryStep]
        | some r0 => simp [retryStep]
    | rdy rp => simp [retryStep]
  | Retrying =>
    cases ev with
    | svc sp => simp [retryStep]
    | chk cp => simp [retryStep]
    | rdy rp =>
      cases rp with
      | notReady => simp [retryStep]
      | ok =>
        cases req with
        | none => simp [retryStep]
        | some r0 => simp [retryStep, isRetrying]
      | err e => simp [retryStep]

/-- C6: if the gate's counter is zero when `call` is invoked, the counter
is untouched and the returned future (the `inner: None` one, state
`NoCap`) polls immediately to the `NoCapacity` error value rather than
panicking; if the counter is non-zero (and in `usize` range), it is
decremented by exactly one and the request enters the checker phase. -/
theorem filter_call_capacity (g : GateState) :
    (g.rem = 0 →
      filterCall g =
        { g with reqs := g.reqs ++
            [{ admitted := false, state := FState.NoCap, done := none }] } ∧
      pollInner FState.NoCap (filterCall g).rem [] =
        some (FState.NoCap, (filterCall g).rem, FOut.final FRes.noCapacity)) ∧
    (g.rem ≠ 0 → g.rem < usizeMod →
      (filterCall g).rem + 1 = g.rem ∧
      (filterCall g).reqs = g.reqs ++
        [{ admitted := true, state := FState.Check, done := none }]) := by
  constructor
  · intro hz
    constructor
    · simp [filterCall, hz]
    · simp [pollInner]
  · intro h0 hlt
    constructor
    · simp [filterCall, h0, usize_sub_one g.rem h0 hlt]
      omega
    · simp [filterCall, h0]

/-- C6 witness: both branches at concrete gates of capacity 0 and 2. -/
theorem filter_call_capacity_witness :
    ((filterNew 0).rem = 0) ∧
    (filterCall (filterNew 0) =
      { filterNew 0 with reqs := (filterNew 0).reqs ++
          [{ admitted := false, state := FState.NoCap, done := none }] } ∧
      pollInner FState.NoCap (filterCall (filterNew 0)).rem [] =
        some (FState.NoCap, (filterCall (filterNew 0)).rem,
          FOut.final FRes.noCapacity)) ∧
    ((filterNew 2).rem ≠ 0) ∧ ((filterNew 2).rem < usizeMod) ∧
    ((filterCall (filterNew 2)).rem + 1 = (filterNew 2).rem ∧
      (filterCall (filterNew 2)).reqs = (filterNew 2).reqs ++
        [{ admitted := true, state := FState.Check, done := none }]) :=
  ⟨rfl, (filter_call_capacity (filterNew 0)).1 rfl, by decide,
    by norm_num [filterNew, usizeMod],
    (filter_call_capacity (filterNew 2)).2 (by decide)
      (by norm_num [filterNew, usizeMod])⟩

/-- C7: if the manager is `Connected` and the inner service's readiness
check fails, that same `poll_ready` call continues exactly as a fresh
call from `Idle` — which immediately starts a new connection attempt
(`Idle` behaves as `Connecting` on a fresh creation future) — and no
readiness poll, from any state with any oracle, ever surfaces an
`Inner` error to the caller. -/
theorem reconnect_inner_failure_reconnects :
    (∀ (e : Nat) (evs : List RcEv),
      rcPollReady (RcEv.err e :: evs) RcState.Connected =
        rcPollReady evs RcState.Idle) ∧
    (∀ evs : List RcEv,
      rcPollReady evs RcState.Idle = rcPollReady evs RcState.Connecting) ∧
    (∀ (evs : List RcEv) (s : RcState),
      rcIsInnerFail (rcPollReady evs s) = false) := by
  refine ⟨?_, ?_, ?_⟩
  · intro e evs
    simp [rcPollReady]
  · intro evs
    simp [rcPollReady]
  · intro evs s
    exact rcPollReady_no_inner evs.length evs s (le_refl _)

/-- C8: restoring a slot notifies the registered waiter exactly when the
increment transitions the counter from zero to one, and after such an
increment a subsequent readiness poll observes the non-zero counter and
reports ready. -/
theorem incRem_wake_exact (rem : Nat) :
    (incRemNotifies rem = true ↔ (rem = 0 ∧ incRemNat rem = 1)) ∧
    (rem = 0 →
      incRemNat rem = 1 ∧ filterPollReady (incRemNat rem) = FReady.ready) := by
  have hone : incRemNat 0 = 1 := by
    have := usize_add_one 0 (by norm_num [usizeMod])
    simpa using this
  constructor
  · constructor
    · intro h
      have h0 : rem = 0 := by simpa [incRemNotifies] using h
      subst h0
      exact ⟨rfl, hone⟩
    · rintro ⟨h0, _⟩
      simp [incRemNotifies, h0]
  · intro h0
    subst h0
    refine ⟨hone, ?_⟩
    rw [hone]
    simp [filterPollReady]

/-- C8 witness: the wake-and-observe path from a zero counter. -/
theorem incRem_wake_exact_witness :
    incRemNat 0 = 1 ∧ filterPollReady (incRemNat 0) = FReady.ready :=
  (incRem_wake_exact 0).2 rfl

/-- C9: from any state of the retry response future reachable from
`Retry::call` — under arbitrary oracles, hence in particular under any
sequence of polls respecting the futures contract — no further poll can
hit the `"retrying requires cloned request"` unwrap: `Retrying` (and
`Checking`) are only ever entered while the cloned request is held, and
`Checking` does not consume it. -/
theorem retry_take_never_panics (rd : Nat → Nat → RResult → Bool)
    (cr : Nat → Nat → Option Nat) (s : RetryFut) (evs : List REv)
    (h : RetryReach rd cr s) :
    pollRetry rd cr evs s ≠ ROut.panicNoRequest :=
  (pollRetry_inv rd cr evs s (retryReach_inv rd cr s h)).1

/-- C9 witness: the freshly-called future with the counting policy. -/
theorem retry_take_never_panics_witness :
    pollRetry rdCount crId [] (retryCall crId 0 0) ≠ ROut.panicNoRequest :=
  retry_take_never_panics rdCount crId (retryCall crId 0 0) []
    (RetryReach.init 0 0)

/-- C10: `Reconnect::call` never changes the lifecycle state, polling the
returned response future never changes the system at all, and in
particular a `Connected` manager whose dispatched response future fails
with an inner error stays `Connected` (the error is reported as
`Inner`); only `poll_ready` performs state transitions, `call` and
response polls being the only other operations. -/
theorem reconnect_call_keeps_state :
    (∀ sys : RcSys, (rcSysStep sys RcOp.call).1.mgr = sys.mgr) ∧
    (∀ (sys : RcSys) (ev : RcEv), (rcSysStep sys (RcOp.pollResponse ev)).1 = sys) ∧
    (∀ (f : Option RcFut) (e : Nat),
      rcSysStep (rcSysStep { mgr := RcState.Connected, fut := f } RcOp.call).1
          (RcOp.pollResponse (RcEv.err e)) =
        ({ mgr := RcState.Connected, fut := some RcFut.present },
          RcObs.respOut (RcResp.failed (RcError.Inner e)))) := by
  refine ⟨?_, ?_, ?_⟩
  · intro sys
    rcases sys with ⟨m, f⟩
    cases m <;> rfl
  · intro sys ev
    rcases sys with ⟨m, f⟩
    cases f <;> rfl
  · intro f e
    rfl

end PantsTower
